import Mathlib

/-!
Shallow embedding of the token-insight-engine search/research services and
verification of the specified properties.

Sources embedded here (with the TypeScript file they come from):
* `SEARCH_CONFIG`            — src/lib/config/searchConfig.ts
* `CostTracker`              — src/lib/services/CostTracker.ts
* `RateLimiter`              — services/RateLimiter.ts
* `CacheService`             — services/CacheService.ts
* `SearchAnalytics`          — src/lib/services/SearchAnalytics.ts
* `withRetry` delay logic and `CircuitBreaker` — src/lib/utils/retryUtils.ts
* `EnhancedSearchService.searchSingle`          — services/EnhancedSearchService.ts
* `DeepResearchDegen` (confidence score, `generateAIReport`, retry loop)
                              — src/lib/deepResearch.ts

Modelling conventions:
* JavaScript numbers are modelled as `Nat` (timestamps, counters) or `Rat`
  (costs, scores, random draws); the code never relies on float rounding.
* `Date.now()` is threaded as an explicit `now : Nat` argument (milliseconds);
  a single logical operation reads the clock once.
* `Math.random()` draws are threaded as explicit `Rat` arguments.
* Network calls (fetch of the search or LLM provider) are oracles passed in
  as `Except String _` / explicit outcome values.
* JS `Map` objects are association lists in insertion order: updating an
  existing key keeps its position, a new key is appended (JS `Map.set`
  semantics, which the eviction scan iterates in insertion order).
-/

/- Batteries marks the `Rat` field operations `@[irreducible]`; restore
definitional transparency so that concrete states evaluate by `decide`. -/
attribute [local semireducible] Rat.mul Rat.add Rat.sub Rat.inv

/-- Substring occurrence on character lists (structural recursion). -/
def listContainsSub : List Char → List Char → Bool
  | [], pat => pat.isEmpty
  | c :: rest, pat => pat.isPrefixOf (c :: rest) || listContainsSub rest pat

/-- JS string `includes` (substring test). -/
def jsIncludes (s pat : String) : Bool :=
  listContainsSub s.data pat.data

/-- JS `toLowerCase()` (ASCII case mapping, as `Char.toLower`). -/
def jsToLower (s : String) : String :=
  String.mk (s.data.map Char.toLower)

/-- JS `trim()`: strip leading and trailing whitespace. -/
def jsTrim (s : String) : String :=
  String.mk (((s.data.dropWhile Char.isWhitespace).reverse.dropWhile
    Char.isWhitespace).reverse)

/-- JS `startsWith(pre)`. -/
def jsStartsWith (s pre : String) : Bool :=
  pre.data.isPrefixOf s.data

/-- Digit character for base-36 printing (JS `Number.prototype.toString(36)`). -/
def base36Digit (n : Nat) : Char :=
  if n < 10 then Char.ofNat (48 + n) else Char.ofNat (87 + n)

/-- Fuel-driven base-36 digit expansion; `fuel ≥ n` suffices since `n / 36 < n`
for `n ≥ 1`. -/
def toBase36Aux : Nat → Nat → List Char
  | 0, n => [base36Digit (n % 36)]
  | fuel + 1, n => if n < 36 then [base36Digit n] else
      toBase36Aux fuel (n / 36) ++ [base36Digit (n % 36)]

/-- JS `Math.abs(hash).toString(36)`. -/
def toBase36 (n : Nat) : String :=
  String.mk (toBase36Aux n n)

/-- Coerce an integer to JS 32-bit signed integer range (ToInt32). -/
def toInt32 (n : Int) : Int :=
  (n + 2 ^ 31) % 2 ^ 32 - 2 ^ 31

namespace SearchConfig

/-! `SEARCH_CONFIG` from src/lib/config/searchConfig.ts. -/

def maxQueriesPerRequest : Nat := 10
def maxResultsPerQuery : Nat := 15
def dailySpendLimit : Rat := 100
def costPerQuery : Rat := 1 / 1000
def warningThreshold : Rat := 4 / 5
def requestsPerMinute : Nat := 30
def requestsPerHour : Nat := 500
def burstAllowance : Nat := 5
def searchResultsTtl : Nat := 3600000
def maxCacheSize : Nat := 1000
def cacheKeyPrefixStr : String := "search_"
def retryMaxRetries : Nat := 3
def retryBaseDelayMs : Rat := 1000
def retryMaxDelayMs : Rat := 10000
def retryExponentialBackoff : Bool := true
def retryableStatusCodes : List Nat := [429, 500, 502, 503, 504]
def analyticsEnableMetrics : Bool := true
def analyticsSampleRate : Rat := 1
def analyticsRetentionDays : Nat := 30
def minContentLength : Nat := 100
def maxContentLength : Nat := 10000
def searchTimeoutMs : Nat := 30000

end SearchConfig

/-- A cleaned web-search result (`SearchSource` in deepResearch.ts). -/
structure SearchSource where
  title : String
  url : String
  content : String
deriving DecidableEq, Repr

namespace CostTracker

/-! Embedding of src/lib/services/CostTracker.ts.  The tracker state is the
`dailyCosts : Map<string, CostEntry[]>` field; the `localStorage` mirror is
write-only persistence and is not modelled. -/

/-- `CostEntry` from CostTracker.ts. -/
structure CostEntry where
  timestamp : Nat
  cost : Rat
  queries : Nat
  operation : String
deriving DecidableEq, Repr

/-- `dailyCosts` map: calendar-day key to the entries recorded that day.
The code keys by `new Date().toISOString().split('T')[0]` (UTC date); two
timestamps get the same key iff they fall in the same UTC day, so the key is
modelled as the day index `now / 86400000`. -/
abbrev CostState := List (Nat × List CostEntry)

def msPerDay : Nat := 86400000

/-- `getTodayKey()` as the UTC day index of the clock value. -/
def dayKeyOf (now : Nat) : Nat := now / msPerDay

def lookupDay : CostState → Nat → Option (List CostEntry)
  | [], _ => none
  | (d, es) :: rest, day => if d = day then some es else lookupDay rest day

/-- Append an entry to a day bucket; a missing day key is appended at the end
(JS `Map.set` on a fresh key). -/
def pushEntry : CostState → Nat → CostEntry → CostState
  | [], day, e => [(day, [e])]
  | (d, es) :: rest, day, e =>
      if d = day then (d, es ++ [e]) :: rest else (d, es) :: pushEntry rest day e

/-- `cleanOldEntries()`: drop entries older than 30 days, then drop empty day
buckets.  The cutoff comparison is on exact integers (JS doubles are exact
here), so it is taken in `Int`. -/
def cleanOldEntries (st : CostState) (now : Nat) : CostState :=
  (st.map fun p => (p.1, p.2.filter fun e =>
      (e.timestamp : Int) > (now : Int) - 30 * 24 * 60 * 60 * 1000)).filter
    fun p => ¬ p.2.isEmpty

/-- `recordCost(queries, operation)`: returns the recorded cost and the new
state. -/
def recordCost (st : CostState) (now : Nat) (queries : Nat) (operation : String) :
    Rat × CostState :=
  let cost : Rat := (queries : Rat) * SearchConfig.costPerQuery
  let st1 := pushEntry st (dayKeyOf now) ⟨now, cost, queries, operation⟩
  (cost, cleanOldEntries st1 now)

/-- `getDailyCost()` for the day of `now`. -/
def getDailyCost (st : CostState) (now : Nat) : Rat :=
  (((lookupDay st (dayKeyOf now)).getD []).map fun e => e.cost).sum

/-- `canAffordOperation(queries)`. -/
def canAffordOperation (st : CostState) (now : Nat) (queries : Nat) : Bool :=
  getDailyCost st now + (queries : Rat) * SearchConfig.costPerQuery ≤
    SearchConfig.dailySpendLimit

/-- A sequence of `recordCost` calls applied in order; each call is
`(timestamp, queries, operation)`. -/
def applyCalls (st : CostState) (calls : List (Nat × Nat × String)) : CostState :=
  calls.foldl (fun s c => (recordCost s c.1 c.2.1 c.2.2).2) st

end CostTracker

namespace RateLimiter

/-! Embedding of services/RateLimiter.ts.  The limiter state is the two maps
`requests : Map<string, RequestRecord[]>` and `burstTokens : Map<string,
number>`. -/

/-- `RequestRecord` from RateLimiter.ts. -/
structure RequestRecord where
  timestamp : Nat
  count : Nat
deriving DecidableEq, Repr

inductive RLWindow
  | minute
  | hour
deriving DecidableEq, Repr

/-- `getKey(identifier, window)` builds `identifier:Y-M-D-h-m` (minute) or
`identifier:Y-M-D-h` (hour): two clock values give equal keys iff they fall in
the same calendar minute (resp. hour), so the key is modelled as the
identifier, the window tag and the minute/hour bucket index.  (Minute and hour
key strings can never collide: they have a different number of fields.) -/
abbrev RLKey := String × RLWindow × Nat

def bucketOf (w : RLWindow) (now : Nat) : Nat :=
  match w with
  | .minute => now / 60000
  | .hour => now / 3600000

def getKey (identifier : String) (w : RLWindow) (now : Nat) : RLKey :=
  (identifier, w, bucketOf w now)

structure RateState where
  requests : List (RLKey × List RequestRecord)
  burstTokens : List (String × Nat)
deriving DecidableEq

def lookupReq : List (RLKey × List RequestRecord) → RLKey → Option (List RequestRecord)
  | [], _ => none
  | (k, rs) :: rest, key => if k = key then some rs else lookupReq rest key

/-- JS `Map.set`: replace in place, or append a fresh key. -/
def setReq : List (RLKey × List RequestRecord) → RLKey → List RequestRecord →
    List (RLKey × List RequestRecord)
  | [], key, v => [(key, v)]
  | (k, rs) :: rest, key, v =>
      if k = key then (key, v) :: rest else (k, rs) :: setReq rest key v

def lookupBurst : List (String × Nat) → String → Option Nat
  | [], _ => none
  | (k, n) :: rest, key => if k = key then some n else lookupBurst rest key

def setBurst : List (String × Nat) → String → Nat → List (String × Nat)
  | [], key, v => [(key, v)]
  | (k, n) :: rest, key, v =>
      if k = key then (key, v) :: rest else (k, n) :: setBurst rest key v

/-- `cleanOldRecords()`: keep records newer than two hours, drop empty keys. -/
def cleanOldRecords (st : RateState) (now : Nat) : RateState :=
  { st with requests :=
      ((st.requests.map fun p => (p.1, p.2.filter fun r =>
          (r.timestamp : Int) > (now : Int) - 2 * 60 * 60 * 1000)).filter
        (fun p => ¬ p.2.isEmpty)) }

/-- `getRequestCount(identifier, window)`. -/
def getRequestCount (st : RateState) (identifier : String) (w : RLWindow)
    (now : Nat) : Nat :=
  (((lookupReq st.requests (getKey identifier w now)).getD []).map
    fun r => r.count).sum

/-- `addRequest(identifier, count)`: push a record into both window buckets,
then sweep old records. -/
def addRequest (st : RateState) (identifier : String) (count : Nat)
    (now : Nat) : RateState :=
  let minuteKey := getKey identifier .minute now
  let hourKey := getKey identifier .hour now
  let reqs1 := setReq st.requests minuteKey
    ((lookupReq st.requests minuteKey).getD [] ++ [⟨now, count⟩])
  let reqs2 := setReq reqs1 hourKey
    ((lookupReq reqs1 hourKey).getD [] ++ [⟨now, count⟩])
  cleanOldRecords { st with requests := reqs2 } now

/-- `getBurstTokens(identifier)`: a missing identifier defaults to the full
burst allowance. -/
def getBurstTokens (st : RateState) (identifier : String) : Nat :=
  (lookupBurst st.burstTokens identifier).getD SearchConfig.burstAllowance

/-- `consumeBurstToken(identifier)`. -/
def consumeBurstToken (st : RateState) (identifier : String) : Bool × RateState :=
  let tokens := getBurstTokens st identifier
  if tokens > 0 then
    (true, { st with burstTokens := setBurst st.burstTokens identifier (tokens - 1) })
  else (false, st)

/-- `replenishBurstTokens()`: adds one token to every identifier present in
the pool map that is below the cap.  The code performs this on every
`checkRateLimit` call; there is no elapsed-time check despite the code
comment saying the pool is replenished every minute. -/
def replenishBurstTokens (st : RateState) : RateState :=
  { st with burstTokens := st.burstTokens.map fun p =>
      (p.1, if p.2 < SearchConfig.burstAllowance
        then min SearchConfig.burstAllowance (p.2 + 1) else p.2) }

/-- `RateLimitResult` from RateLimiter.ts. -/
structure RateLimitResult where
  allowed : Bool
  remaining : Nat
  resetTime : Nat
  retryAfter : Option Nat
deriving DecidableEq, Repr

/-- `checkRateLimit(identifier, requestCount)`: decision plus updated state. -/
def checkRateLimit (st : RateState) (identifier : String) (requestCount : Nat)
    (now : Nat) : RateLimitResult × RateState :=
  let st1 := replenishBurstTokens st
  let minuteCount := getRequestCount st1 identifier .minute now
  let hourCount := getRequestCount st1 identifier .hour now
  let minuteLimit := SearchConfig.requestsPerMinute
  let hourLimit := SearchConfig.requestsPerHour
  -- minute bound: may be rescued by a burst token
  let step2 : (Bool × Option Nat) × RateState :=
    if minuteCount + requestCount > minuteLimit then
      let c := consumeBurstToken st1 identifier
      if c.1 then ((true, none), c.2) else ((false, some 60), c.2)
    else ((true, none), st1)
  let st2 := step2.2
  -- hour bound: always denies, no burst override
  let decided : Bool × Option Nat :=
    if hourCount + requestCount > hourLimit then (false, some 3600) else step2.1
  let allowed := decided.1
  let minuteRemaining := minuteLimit - minuteCount
  let hourRemaining := hourLimit - hourCount
  let remaining := min minuteRemaining hourRemaining
  let resetTime := (now / 60000 + 1) * 60000
  let st3 := if allowed then addRequest st2 identifier requestCount now else st2
  ({ allowed := allowed
     remaining := remaining - (if allowed then requestCount else 0)
     resetTime := resetTime
     retryAfter := decided.2 }, st3)

end RateLimiter

namespace CacheService

/-! Embedding of services/CacheService.ts.  The cached payload type is fixed
to `List SearchSource` (the search-results specialisation actually verified);
`compress` stores the raw data unchanged (the code keeps `entry.data = data`
and only records a `compressed` flag), so compression is behaviour-free. -/

/-- `CacheEntry` from CacheService.ts. -/
structure CacheEntry where
  data : List SearchSource
  timestamp : Nat
  ttl : Nat
  compressedFlag : Bool
  hits : Nat
  size : Nat
deriving DecidableEq, Repr

/-- Cache store plus the cumulative hit/miss counters. -/
structure CacheState where
  entries : List (String × CacheEntry)
  hits : Nat
  misses : Nat
deriving DecidableEq, Repr

def emptyCache : CacheState := ⟨[], 0, 0⟩

def lookupEntry : List (String × CacheEntry) → String → Option CacheEntry
  | [], _ => none
  | (k, e) :: rest, key => if k = key then some e else lookupEntry rest key

/-- JS `Map.set`: replace in place, or append a fresh key. -/
def setEntry : List (String × CacheEntry) → String → CacheEntry →
    List (String × CacheEntry)
  | [], key, e => [(key, e)]
  | (k, e0) :: rest, key, e =>
      if k = key then (key, e) :: rest else (k, e0) :: setEntry rest key e

/-- `Map.delete(key)`: remove the (unique) entry at `key`. -/
def deleteEntry (l : List (String × CacheEntry)) (key : String) :
    List (String × CacheEntry) :=
  l.eraseP (fun p => p.1 = key)

/-- `hashString(str)`: the JS 32-bit string hash
`hash = ((hash << 5) - hash) + charCode; hash = hash & hash`, then
`Math.abs(hash).toString(36)`.  Character codes are modelled as the Unicode
code point (`charCodeAt` returns UTF-16 units, which agree on the basic
multilingual plane). -/
def hashStep (h : Int) (c : Char) : Int :=
  toInt32 (toInt32 (h * 32) - h + (c.toNat : Int))

def hashString (str : String) : String :=
  if str.length = 0 then "0"
  else toBase36 (str.data.foldl hashStep 0).natAbs

/-- `generateKey(query, maxResults?)`: normalised query hash with the
key prefix and an optional result-count suffix (only appended when
`maxResults` is truthy, i.e. present and non-zero). -/
def generateKey (query : String) (maxResults : Option Nat) : String :=
  let normalizedQuery := jsTrim (jsToLower query)
  let suffix := match maxResults with
    | some n => if n = 0 then "" else ":" ++ toString n
    | none => ""
  SearchConfig.cacheKeyPrefixStr ++ hashString normalizedQuery ++ suffix

/-- `calculateSize(data)` estimates the serialized byte size; it feeds only
the statistics (never a decision), so it is modelled as the total string
length of the payload. -/
def calculateSize (data : List SearchSource) : Nat :=
  (data.map fun s => s.title.length + s.url.length + s.content.length).sum

/-- `isExpired(entry)`: `Date.now() - entry.timestamp > entry.ttl`.  Truncated
`Nat` subtraction agrees with the JS comparison: a negative difference is
never `> ttl`. -/
def isExpired (e : CacheEntry) (now : Nat) : Bool :=
  now - e.timestamp > e.ttl

/-- The composite eviction score `entry.hits + (Date.now() - entry.timestamp)
/ 1000000` (lower = evict first). -/
def entryScore (e : CacheEntry) (now : Nat) : Rat :=
  (e.hits : Rat) + ((now - e.timestamp : Nat) : Rat) / 1000000

/-- The forward scan of `evictLRU`: starting from `lruScore = Infinity`, keep
the first strictly smaller score.  The first list element always beats
infinity, so the scan is seeded with it. -/
def scanMin (now : Nat) : String × Rat → List (String × CacheEntry) → String × Rat
  | best, [] => best
  | best, (k, e) :: rest =>
      scanMin now (if entryScore e now < best.2 then (k, entryScore e now) else best) rest

/-- `evictLRU()`: no-op unless the store already exceeds `maxCacheSize`;
otherwise delete the lowest-scored entry. -/
def evictLRU (st : CacheState) (now : Nat) : CacheState :=
  if st.entries.length ≤ SearchConfig.maxCacheSize then st
  else
    match st.entries with
    | [] => st
    | (k, e) :: rest =>
        { st with entries :=
            deleteEntry st.entries (scanMin now (k, entryScore e now) rest).1 }

/-- `set(key, data, customTtl?)`: evict (if already over capacity), then
insert a fresh entry with zero hits. -/
def set (st : CacheState) (key : String) (data : List SearchSource)
    (customTtl : Option Nat) (now : Nat) : CacheState :=
  let st1 := evictLRU st now
  let entry : CacheEntry :=
    { data := data
      timestamp := now
      ttl := customTtl.getD SearchConfig.searchResultsTtl
      compressedFlag := true
      hits := 0
      size := calculateSize data }
  { st1 with entries := setEntry st1.entries key entry }

/-- `get(key)`: a missing or expired entry is a miss (the expired entry is
deleted lazily); a hit bumps the per-entry and global hit counters. -/
def get (st : CacheState) (key : String) (now : Nat) :
    Option (List SearchSource) × CacheState :=
  match lookupEntry st.entries key with
  | none => (none, { st with misses := st.misses + 1 })
  | some e =>
      if isExpired e now then
        (none, { st with entries := deleteEntry st.entries key,
                         misses := st.misses + 1 })
      else
        (some e.data,
         { st with entries := setEntry st.entries key { e with hits := e.hits + 1 },
                   hits := st.hits + 1 })

/-- `setSearchResults(query, results, maxResults?)`. -/
def setSearchResults (st : CacheState) (query : String)
    (results : List SearchSource) (maxResults : Option Nat) (now : Nat) :
    CacheState :=
  set st (generateKey query maxResults) results none now

/-- `getSearchResults(query, maxResults?)`. -/
def getSearchResults (st : CacheState) (query : String) (maxResults : Option Nat)
    (now : Nat) : Option (List SearchSource) × CacheState :=
  get st (generateKey query maxResults) now

end CacheService

namespace SearchAnalytics

/-! Embedding of src/lib/services/SearchAnalytics.ts (`recordSearch`). -/

/-- `SearchMetrics` without the timestamp (the argument of `recordSearch`). -/
structure SearchMetricsIn where
  query : String
  duration : Nat
  resultCount : Nat
  success : Bool
  error : Option String
  cost : Rat
  cached : Bool
  source : String
  retries : Nat
  relevanceScore : Option Rat
deriving DecidableEq, Repr

/-- A stored `SearchMetrics` record (argument plus arrival timestamp). -/
structure SearchMetricsRec where
  base : SearchMetricsIn
  timestamp : Nat
deriving DecidableEq, Repr

/-- The analytics settings `SEARCH_CONFIG.ANALYTICS` read by `recordSearch`.
The shipped configuration is `{enableMetrics := true, sampleRate := 1}`. -/
structure AnalyticsConfig where
  enableMetrics : Bool
  sampleRate : Rat
deriving DecidableEq, Repr

def defaultAnalyticsConfig : AnalyticsConfig :=
  ⟨SearchConfig.analyticsEnableMetrics, SearchConfig.analyticsSampleRate⟩

/-- `recordSearch(metrics)`: drop everything when metrics are disabled; then
drop the record when the `Math.random()` draw exceeds the sample rate — this
early return applies to every record, including failed and high-cost ones.
Returns the new log and whether an immediate save-to-storage was triggered
(`!metrics.success || metrics.cost > 1`). -/
def recordSearch (cfg : AnalyticsConfig) (log : List SearchMetricsRec)
    (m : SearchMetricsIn) (now : Nat) (rand : Rat) :
    List SearchMetricsRec × Bool :=
  if ¬ cfg.enableMetrics then (log, false)
  else if rand > cfg.sampleRate then (log, false)
  else (log ++ [⟨m, now⟩], ¬ m.success ∨ m.cost > 1)

end SearchAnalytics

namespace RetryUtils

/-! Embedding of src/lib/utils/retryUtils.ts. -/

/-- The delay computed by `withRetry` after attempt number `attempts`
(1-based) fails and a retry is scheduled:
```
let delay = baseDelayMs;
if (exponentialBackoff) delay = Math.min(baseDelayMs * 2^(attempts-1), maxDelayMs);
const jitter = Math.random() * 0.1 * delay;
delay += jitter;
```
The jitter is added in both branches. -/
def retryDelay (attempts : Nat) (baseDelayMs maxDelayMs : Rat)
    (exponentialBackoff : Bool) (rand : Rat) : Rat :=
  let delay := if exponentialBackoff
    then min (baseDelayMs * 2 ^ (attempts - 1)) maxDelayMs
    else baseDelayMs
  delay + rand * (1 / 10) * delay

/-- Circuit breaker state tag. -/
inductive BreakerMode
  | closed
  | opened
  | halfOpen
deriving DecidableEq, Repr

/-- The mutable fields of `CircuitBreaker`. -/
structure BreakerState where
  failures : Nat
  lastFailureTime : Nat
  mode : BreakerMode
deriving DecidableEq, Repr

def initialBreaker : BreakerState := ⟨0, 0, .closed⟩

/-- The body of `execute` once the open-state gate has been passed:
run the wrapped operation (its outcome is the oracle `res`), then do the
success/failure bookkeeping. -/
def breakerRun (failureThreshold : Nat) (b : BreakerState) (now : Nat)
    (res : Except String α) : Except String α × BreakerState :=
  match res with
  | .ok v =>
      if b.mode = .halfOpen then (.ok v, { b with failures := 0, mode := .closed })
      else (.ok v, b)
  | .error e =>
      let f := b.failures + 1
      (.error e,
       { failures := f
         lastFailureTime := now
         mode := if f ≥ failureThreshold then .opened else b.mode })

/-- `CircuitBreaker.execute(fn)`: fail fast while open and inside the
recovery window; otherwise (transitioning to half-open when the window has
elapsed) run the operation and update the state.  The third component tells
whether the wrapped function was invoked. -/
def execute (failureThreshold recoveryTimeMs : Nat) (b : BreakerState)
    (now : Nat) (res : Except String α) :
    Except String α × BreakerState × Bool :=
  match b.mode with
  | .opened =>
      if now - b.lastFailureTime ≥ recoveryTimeMs then
        let r := breakerRun failureThreshold { b with mode := .halfOpen } now res
        (r.1, r.2, true)
      else (.error "Circuit breaker is OPEN - service unavailable", b, false)
  | _ =>
      let r := breakerRun failureThreshold b now res
      (r.1, r.2, true)

end RetryUtils

namespace EnhancedSearchService

/-! Embedding of `EnhancedSearchService` (services/EnhancedSearchService.ts).
The service composes the singleton `CostTracker`, `RateLimiter`,
`CacheService` and `SearchAnalytics` with a `CircuitBreaker(5, 60000, 3)`.
The external search call (the circuit-breaker-wrapped
`withTimeout(withRetry(performRawSearch))` composite) is an oracle
`net : Except String (List SearchSource)`; a ghost record counts how often
the network oracle was invoked and how often `recordCost` was called. -/

/-- `EnhancedSearchOptions` (the unused `priority` field is omitted). -/
structure EnhOptions where
  maxResults : Option Nat := none
  forceRefresh : Bool := false
  userId : Option String := none
  bypassRateLimit : Bool := false
deriving DecidableEq, Repr

/-- `getUserIdentifier(options)`. -/
def uidOf (opts : EnhOptions) : String := opts.userId.getD "anonymous"

/-- `Math.min(options.maxResults || maxResultsPerQuery, maxResultsPerQuery)`;
`0` is falsy in JS, so a zero request falls back to the default. -/
def effMaxResults (opts : EnhOptions) : Nat :=
  min (match opts.maxResults with
        | some n => if n = 0 then SearchConfig.maxResultsPerQuery else n
        | none => SearchConfig.maxResultsPerQuery)
    SearchConfig.maxResultsPerQuery

/-- `removeDuplicates(results)`: keep the first source per
`url + '|' + title.toLowerCase()` fingerprint. -/
def removeDupAux : List String → List SearchSource → List SearchSource
  | _, [] => []
  | seen, r :: rest =>
      let fp := r.url ++ "|" ++ jsToLower r.title
      if seen.contains fp then removeDupAux seen rest
      else r :: removeDupAux (fp :: seen) rest

def removeDuplicates (results : List SearchSource) : List SearchSource :=
  removeDupAux [] results

/-- `calculateQualityScore(results)`: weighted blend of content-length ratio,
title heuristic and HTTPS ratio over the results with long-enough content. -/
def calculateQualityScore (results : List SearchSource) : Rat :=
  if results.length = 0 then 0
  else
    let folded := results.foldl
      (fun (acc : Rat × Nat) r =>
        if r.content.length < SearchConfig.minContentLength then acc
        else
          let lengthScore : Rat :=
            min ((r.content.length : Rat) / (SearchConfig.maxContentLength : Rat)) 1
          let titleScore : Rat := if r.title.length > 10 then 8 / 10 else 4 / 10
          let urlScore : Rat := if jsStartsWith r.url "https://" then 8 / 10 else 6 / 10
          (acc.1 + (lengthScore * (5 / 10) + titleScore * (3 / 10) + urlScore * (2 / 10)),
           acc.2 + 1))
      ((0 : Rat), (0 : Nat))
    if folded.2 > 0 then folded.1 / (folded.2 : Rat) else 0

/-- The `metadata` part of a `SearchResponse`. -/
structure SearchMetadata where
  cached : Bool
  cost : Rat
  duration : Nat
  attempts : Nat
  rateLimitRemaining : Nat
  qualityScore : Option Rat
deriving DecidableEq, Repr

structure SearchResponse where
  results : List SearchSource
  metadata : SearchMetadata
deriving DecidableEq, Repr

/-- The combined state of the service singletons. -/
structure ServiceState where
  cost : CostTracker.CostState
  rate : RateLimiter.RateState
  cache : CacheService.CacheState
  breaker : RetryUtils.BreakerState
  analytics : List SearchAnalytics.SearchMetricsRec
deriving DecidableEq

/-- Ghost instrumentation: how many times the network oracle was invoked and
how many times `CostTracker.recordCost` was called. -/
structure Ghost where
  networkCalls : Nat
  recordCostCalls : Nat
deriving DecidableEq, Repr

/-- The breaker constructed in the service: `new CircuitBreaker(5, 60000, 3)`. -/
def cbFailureThreshold : Nat := 5
def cbRecoveryTimeMs : Nat := 60000

def optNatToString : Option Nat → String
  | some n => toString n
  | none => "undefined"

/-- The `catch` block of `searchSingle`: probe the rate limiter with a
zero-count check, record a failure metric, and rethrow.  `recordCost` is
never called on this path. -/
def failExit (st : ServiceState) (query uid msg : String) (now : Nat)
    (rand : Rat) (netCalls : Nat) :
    Except String SearchResponse × ServiceState × Ghost :=
  let rc := RateLimiter.checkRateLimit st.rate uid 0 now
  let analytics1 := (SearchAnalytics.recordSearch SearchAnalytics.defaultAnalyticsConfig
    st.analytics
    { query := query, duration := 0, resultCount := 0, success := false,
      error := some msg, cost := 0, cached := false, source := "tavily",
      retries := 0, relevanceScore := none } now rand).1
  (.error msg, { st with rate := rc.2, analytics := analytics1 }, ⟨netCalls, 0⟩)

/-- The tail of the success path of `searchSingle`: record the cost (paid
calls only), compute the quality score, probe the limiter with a zero-count
check, record an analytics entry, and build the response. -/
def finishCall (st : ServiceState) (query uid : String)
    (results : List SearchSource) (cached : Bool) (now : Nat) (rand : Rat)
    (netCalls : Nat) : Except String SearchResponse × ServiceState × Ghost :=
  let costStep : Rat × CostTracker.CostState × Nat :=
    if cached then (0, st.cost, 0)
    else
      let r := CostTracker.recordCost st.cost now 1 "search"
      (r.1, r.2, 1)
  let qualityScore := calculateQualityScore results
  let rc := RateLimiter.checkRateLimit st.rate uid 0 now
  let analytics1 := (SearchAnalytics.recordSearch SearchAnalytics.defaultAnalyticsConfig
    st.analytics
    { query := query, duration := 0, resultCount := results.length, success := true,
      error := none, cost := costStep.1, cached := cached,
      source := if cached then "cache" else "tavily", retries := 0,
      relevanceScore := some qualityScore } now rand).1
  (.ok { results := results
         metadata :=
           { cached := cached, cost := costStep.1, duration := 0, attempts := 1,
             rateLimitRemaining := rc.1.remaining, qualityScore := some qualityScore } },
   { st with cost := costStep.2.1, rate := rc.2, analytics := analytics1 },
   ⟨netCalls, costStep.2.2⟩)

/-- The fetch-on-miss path of `searchSingle`: the circuit-breaker-wrapped
network call, deduplication and quality filtering, and the cache write. -/
def fetchAndCache (st : ServiceState) (query uid : String) (mr : Nat)
    (now : Nat) (net : Except String (List SearchSource)) (rand : Rat) :
    Except String SearchResponse × ServiceState × Ghost :=
  let ex := RetryUtils.execute cbFailureThreshold cbRecoveryTimeMs st.breaker now net
  let netCalls := if ex.2.2 then 1 else 0
  let stC := { st with breaker := ex.2.1 }
  match ex.1 with
  | .error e => failExit stC query uid e now rand netCalls
  | .ok raw =>
      let results := (removeDuplicates raw).filter fun r =>
        decide (SearchConfig.minContentLength ≤ r.content.length) &&
        decide (r.content.length ≤ SearchConfig.maxContentLength)
      let stD := { stC with cache :=
        CacheService.setSearchResults stC.cache query results (some mr) now }
      finishCall stD query uid results false now rand netCalls

/-- The cache-consult stage of `searchSingle` (everything after the cost and
rate-limit gates): on a hit, finish immediately with `cached = true`; on a
miss (or under force refresh), fetch. -/
def searchSingleCore (st : ServiceState) (query uid : String) (mr : Nat)
    (forceRefresh : Bool) (now : Nat) (net : Except String (List SearchSource))
    (rand : Rat) : Except String SearchResponse × ServiceState × Ghost :=
  let cacheStep : Option (List SearchSource) × CacheService.CacheState :=
    if forceRefresh then (none, st.cache)
    else CacheService.getSearchResults st.cache query (some mr) now
  let stB := { st with cache := cacheStep.2 }
  match cacheStep.1 with
  | some rs => finishCall stB query uid rs true now rand 0
  | none => fetchAndCache stB query uid mr now net rand

/-- `searchSingle(query, options)`.  Order of operations, as in the source:
cost validation → rate limiting (unless bypassed) → cache consult (unless
force refresh) → on miss, the circuit-breaker-wrapped network call followed
by dedup/quality filtering and a cache write → cost/metrics/response. -/
def searchSingle (st : ServiceState) (query : String) (opts : EnhOptions)
    (now : Nat) (net : Except String (List SearchSource)) (rand : Rat) :
    Except String SearchResponse × ServiceState × Ghost :=
  let uid := uidOf opts
  let mr := effMaxResults opts
  if CostTracker.canAffordOperation st.cost now 1 = false then
    failExit st query uid "Daily cost limit exceeded" now rand 0
  else
    let rateStep : Option String × ServiceState :=
      if opts.bypassRateLimit then (none, st)
      else
        let rc := RateLimiter.checkRateLimit st.rate uid 1 now
        if rc.1.allowed then (none, { st with rate := rc.2 })
        else
          (some ("Rate limit exceeded. Retry after " ++
              optNatToString rc.1.retryAfter ++ " seconds"),
           { st with rate := rc.2 })
    match rateStep.1 with
    | some msg => failExit rateStep.2 query uid msg now rand 0
    | none => searchSingleCore rateStep.2 query uid mr opts.forceRefresh now net rand

end EnhancedSearchService

namespace DeepResearchDegen

/-! Embedding of the `DeepResearchDegen` class (src/lib/deepResearch.ts):
the confidence-score computation of `generateReport`, the error handling of
`generateAIReport`, and the bounded retry loop `generateReportWithRetry`. -/

/-- The confidence score assembled in `generateReport`:
`Math.min(95, Math.max(50, uniqueSources.length * 3 + qualityEvaluation.score))`. -/
def confidenceScore (numUniqueSources qualityScore : Nat) : Nat :=
  min 95 (max 50 (numUniqueSources * 3 + qualityScore))

/-- The relevant fields of the parsed `/v1/responses` body:
`data.response || data.choices?.[0]?.message?.content || data.content`. -/
structure ApiBody where
  response : Option String
  choicesContent : Option String
  content : Option String
deriving DecidableEq, Repr

/-- JS `a || b` on optional strings: an absent or empty string is falsy. -/
def jsOrStr (a b : Option String) : Option String :=
  match a with
  | some s => if s = "" then b else some s
  | none => b

def extractContent (body : ApiBody) : Option String :=
  jsOrStr body.response (jsOrStr body.choicesContent body.content)

/-- Outcome of the `fetch` to the LLM provider: either the promise rejected
(network error, timeout, JSON parse failure) with an error message, or a
response arrived with the given `ok`/`status`/`statusText`, error body text
and parsed body. -/
inductive FetchOutcome
  | threw (msg : String)
  | completed (ok : Bool) (status : Nat) (statusText errorText : String) (body : ApiBody)
deriving DecidableEq, Repr

/-- The fixed message stem returned by the `catch` block of
`generateAIReport`. -/
def errApiMsgStart : String := "Analysis unavailable due to API error: "

/-- `generateAIReport(prompt, mode)` as a function of the model name and the
fetch outcome (the prompt and mode do not influence control flow): every
throw inside the `try` is caught and turned into
`"Analysis unavailable due to API error: " + message`. -/
def generateAIReport (modelName : String) (outcome : FetchOutcome) : String :=
  if modelName = "" ∨ jsIncludes modelName "o3" = false then
    errApiMsgStart ++ ("Invalid or unsupported model: " ++ modelName)
  else
    match outcome with
    | .threw msg => errApiMsgStart ++ msg
    | .completed ok status statusText errorText body =>
        if ok = false then
          errApiMsgStart ++
            ("HTTP " ++ toString status ++ ": " ++ statusText ++ " - " ++ errorText)
        else
          match extractContent body with
          | some s =>
              if s = "" then errApiMsgStart ++ "Empty or invalid response from OpenAI API"
              else s
          | none => errApiMsgStart ++ "Empty or invalid response from OpenAI API"

/-- An LLM-call failure in the sense of `generateAIReport`: unsupported model
name, rejected fetch, non-OK HTTP status, or an empty/malformed body. -/
def isFailureOutcome (modelName : String) (outcome : FetchOutcome) : Bool :=
  if modelName = "" ∨ jsIncludes modelName "o3" = false then true
  else
    match outcome with
    | .threw _ => true
    | .completed ok _ _ _ body =>
        if ok = false then true
        else
          match extractContent body with
          | some s => if s = "" then true else false
          | none => true

/-- `RETRY_CONFIG.maxRetries` from deepResearch.ts. -/
def drMaxRetries : Nat := 3

/-- `generateReportWithRetry`: keep regenerating until the quality gate
passes or `retryCount >= RETRY_CONFIG.maxRetries`, returning the last
attempt's report and the final retry count.  The report of attempt `k` and
the quality verdict at attempt `k` are oracles (`reportAt`, `acceptableAt`);
the recursion is driven by fuel, and the initial call supplies fuel
`drMaxRetries + 1`, which the retry bound makes sufficient. -/
def generateReportWithRetry (reportAt : Nat → String) (acceptableAt : Nat → Bool) :
    Nat → Nat → String × Nat
  | 0, retryCount => (reportAt retryCount, retryCount)
  | fuel + 1, retryCount =>
      if acceptableAt retryCount ∨ retryCount ≥ drMaxRetries then
        (reportAt retryCount, retryCount)
      else generateReportWithRetry reportAt acceptableAt fuel (retryCount + 1)

end DeepResearchDegen

/-! Concrete states and traces used by the counterexamples and witnesses
below.  Timestamps are realistic epoch milliseconds. -/

/-- A fixed clock value (2001-09-09T01:46:40Z in epoch milliseconds). -/
def tClock : Nat := 1000000000000

namespace RateLimiter

/-- A state whose hour window for `"u"` is exactly full: one record of count
500 in the current hour bucket, 30 requests in the current minute bucket, and
a full burst pool. -/
def denyBurstState : RateState :=
  { requests :=
      [ (("u", .minute, bucketOf .minute tClock), [⟨tClock, 30⟩])
      , (("u", .hour, bucketOf .hour tClock), [⟨tClock, 500⟩]) ]
    burstTokens := [("u", 5)] }

/-- A state whose hour window for `"u"` is exactly full but whose minute
window is empty. -/
def denyHourState : RateState :=
  { requests := [(("u", .hour, bucketOf .hour tClock), [⟨tClock, 500⟩])]
    burstTokens := [] }

/-- A state with an exhausted burst pool for `"u"` and no recorded requests. -/
def zeroBurstState : RateState :=
  { requests := [], burstTokens := [("u", 0)] }

end RateLimiter

namespace RetryUtils

/-- One `execute` step against a failing operation, for the breaker the
search service constructs (`failureThreshold = 5`, `recoveryTimeMs = 60000`);
only the resulting state is kept. -/
def cbFailStep (b : BreakerState) (now : Nat) : BreakerState :=
  (execute 5 60000 b now (Except.error "provider failure" : Except String Unit)).2.1

/-- One `execute` step against a succeeding operation. -/
def cbOkStep (b : BreakerState) (now : Nat) : BreakerState :=
  (execute 5 60000 b now (Except.ok () : Except String Unit)).2.1

/-- Four failures, then a success, reaching a closed breaker with four
accumulated failures. -/
def cbAfterSuccess : BreakerState :=
  cbOkStep (cbFailStep (cbFailStep (cbFailStep (cbFailStep initialBreaker 0) 1) 2) 3) 4

/-- One more (non-consecutive) failure after the success. -/
def cbAfterFifthFailure : BreakerState := cbFailStep cbAfterSuccess 5

end RetryUtils

namespace CacheService

/-- A synthetic cache entry for capacity experiments. -/
def plainEntry : CacheEntry :=
  { data := [], timestamp := 0, ttl := SearchConfig.searchResultsTtl,
    compressedFlag := true, hits := 0, size := 0 }

/-- A store holding exactly `maxCacheSize` distinct keys. -/
def bigEntries : List (String × CacheEntry) :=
  (List.range SearchConfig.maxCacheSize).map fun i => (Nat.repr i, plainEntry)

def bigCacheState : CacheState := ⟨bigEntries, 0, 0⟩

end CacheService

namespace SearchAnalytics

/-- A failed search metric (zero cost), as recorded by the error path of
`searchSingle`. -/
def failedMetric : SearchMetricsIn :=
  { query := "q", duration := 0, resultCount := 0, success := false,
    error := some "provider failure", cost := 0, cached := false,
    source := "tavily", retries := 0, relevanceScore := none }

end SearchAnalytics

namespace EnhancedSearchService

/-- A cost-tracker state already holding 99.999 of today's 100.0 budget. -/
def nearLimitCost : CostTracker.CostState :=
  [(CostTracker.dayKeyOf tClock, [⟨tClock, (99999 : Rat) / 1000, 99999, "search"⟩])]

/-- Service state for the budget counterexample: almost-exhausted budget,
empty limiter, empty cache, closed breaker. -/
def cexState0 : ServiceState :=
  ⟨nearLimitCost, ⟨[], []⟩, CacheService.emptyCache, RetryUtils.initialBreaker, []⟩

/-- First `searchSingle` call of the counterexample (fresh fetch, succeeds,
records the final 0.001 of the budget). -/
def cexCall1 : Except String SearchResponse × ServiceState × Ghost :=
  searchSingle cexState0 "q" {} tClock (Except.ok []) 0

/-- Second `searchSingle` call for the same query, issued with the cache
entry still fresh. -/
def cexCall2 : Except String SearchResponse × ServiceState × Ghost :=
  searchSingle cexCall1.2.1 "q" {} tClock (Except.ok []) 0

/-- A well-formed source whose cleaned content is comfortably inside the
`[minContentLength, maxContentLength]` quality band. -/
def wSrc : SearchSource :=
  { title := "Example protocol deep research overview"
    url := "https://example.com/research"
    content := "The protocol combines a staking module with a lending market and distributes protocol revenue to governance token holders on a quarterly schedule, according to the published documentation." }

/-- A completely fresh service state. -/
def wState0 : ServiceState :=
  ⟨[], ⟨[], []⟩, CacheService.emptyCache, RetryUtils.initialBreaker, []⟩

/-- First `searchSingle` call of the idempotence witness. -/
def wCall1 : Except String SearchResponse × ServiceState × Ghost :=
  searchSingle wState0 "q" {} tClock (Except.ok [wSrc]) 0

/-- The response of the first witness call (total by construction; the
fallback branch is never taken). -/
def wResp1 : SearchResponse :=
  match wCall1.1 with
  | .ok r => r
  | .error _ => ⟨[], ⟨false, 0, 0, 0, 0, none⟩⟩

end EnhancedSearchService

namespace EnhancedSearchService

/-- Projection for stating results about the `Except` component. -/
def errorMsgOf : Except String SearchResponse → Option String
  | .error e => some e
  | .ok _ => none

/-- Projection for stating results about the `Except` component. -/
def okRespOf : Except String SearchResponse → Option SearchResponse
  | .error _ => none
  | .ok r => some r

end EnhancedSearchService

/-! ## Helper lemmas -/

theorem RateLimiter.replenish_requests (st : RateLimiter.RateState) :
    (RateLimiter.replenishBurstTokens st).requests = st.requests := rfl

theorem RateLimiter.consume_requests (st : RateLimiter.RateState) (id : String) :
    (RateLimiter.consumeBurstToken st id).2.requests = st.requests := by
  unfold RateLimiter.consumeBurstToken
  by_cases h : RateLimiter.getBurstTokens st id > 0 <;> simp [h]

/-! ## Claim theorems -/

/-- C9: for every unique-source count and quality-evaluation score, the
confidence score assembled by `DeepResearchDegen.generateReport`, namely
`min(95, max(50, uniqueSources.length * 3 + qualityEvaluation.score))`, lies
in the closed interval `[50, 95]`. -/
theorem confidenceScore_bounds (n q : Nat) :
    50 ≤ DeepResearchDegen.confidenceScore n q ∧
      DeepResearchDegen.confidenceScore n q ≤ 95 := by
  unfold DeepResearchDegen.confidenceScore
  omega

/-- C6 counterexample: with exponential backoff disabled and the shipped base
delay of 1000 ms, a `Math.random()` draw of 0.5 yields a delay of 1050 ms —
the code adds up to 10% jitter in the constant-delay branch as well, so the
delay is not the constant `baseDelayMs` the claim states. -/
theorem retryDelay_constant_mode_has_jitter :
    RetryUtils.retryDelay 1 SearchConfig.retryBaseDelayMs
      SearchConfig.retryMaxDelayMs false (1 / 2) ≠ SearchConfig.retryBaseDelayMs := by
  norm_num [RetryUtils.retryDelay, SearchConfig.retryBaseDelayMs,
    SearchConfig.retryMaxDelayMs]

/-- C6 amended: the delay before retry attempt `k` (after 1-based attempt
`k` fails) is `min(baseDelayMs * 2^(k-1), maxDelayMs)` plus up to 10% uniform
jitter when exponential backoff is enabled, and `baseDelayMs` plus up to 10%
uniform jitter (not the bare constant) when it is disabled. -/
theorem retryDelay_formula_amended (attempts : Nat) (base maxD rand : Rat)
    (hb : 0 ≤ base) (hm : 0 ≤ maxD) (hr0 : 0 ≤ rand) (hr1 : rand < 1) :
    (RetryUtils.retryDelay attempts base maxD true rand =
        min (base * 2 ^ (attempts - 1)) maxD +
          rand * (1 / 10) * min (base * 2 ^ (attempts - 1)) maxD ∧
      min (base * 2 ^ (attempts - 1)) maxD ≤
        RetryUtils.retryDelay attempts base maxD true rand ∧
      RetryUtils.retryDelay attempts base maxD true rand ≤
        min (base * 2 ^ (attempts - 1)) maxD * (11 / 10)) ∧
    (RetryUtils.retryDelay attempts base maxD false rand =
        base + rand * (1 / 10) * base ∧
      base ≤ RetryUtils.retryDelay attempts base maxD false rand ∧
      RetryUtils.retryDelay attempts base maxD false rand ≤ base * (11 / 10)) := by
  have hc : (0 : Rat) ≤ min (base * 2 ^ (attempts - 1)) maxD :=
    le_min (by positivity) hm
  have h1r : (0 : Rat) ≤ 1 - rand := by linarith
  constructor
  · refine ⟨by simp [RetryUtils.retryDelay], ?_, ?_⟩
    · simp only [RetryUtils.retryDelay]
      norm_num
      nlinarith [mul_nonneg hr0 hc]
    · simp only [RetryUtils.retryDelay]
      norm_num
      nlinarith [mul_nonneg h1r hc]
  · refine ⟨by simp [RetryUtils.retryDelay], ?_, ?_⟩
    · simp only [RetryUtils.retryDelay]
      norm_num
      nlinarith [mul_nonneg hr0 hb]
    · simp only [RetryUtils.retryDelay]
      norm_num
      nlinarith [mul_nonneg h1r hb]

/-- C6 witness: the amended C6 theorem at attempt 2, base 1000, cap 10000 and
a random draw of one half. -/
theorem retryDelay_formula_witness :
    (0 : Rat) ≤ 1000 ∧ (0 : Rat) ≤ 10000 ∧ (0 : Rat) ≤ 1 / 2 ∧ (1 / 2 : Rat) < 1 ∧
    RetryUtils.retryDelay 2 1000 10000 false (1 / 2) = 1000 + (1 / 2) * (1 / 10) * 1000 :=
  ⟨by decide, by decide, by decide, by decide,
    ((retryDelay_formula_amended 2 1000 10000 (1 / 2) (by decide) (by decide)
      (by decide) (by decide)).2).1⟩

/-- C8 counterexample: with metrics enabled and a configured sample rate of
0.5, a failed record is dropped entirely when the `Math.random()` draw is
0.9 — the sampling early-return in `recordSearch` runs before the
failed/high-cost special case, so failed records do not bypass sampling. -/
theorem recordSearch_drops_failed_record :
    SearchAnalytics.failedMetric.success = false ∧
    (SearchAnalytics.recordSearch ⟨true, 1 / 2⟩ [] SearchAnalytics.failedMetric 0
      (9 / 10)).1 = [] := by
  exact ⟨rfl, by decide⟩

/-- C8 amended: sampling applies uniformly to every record — with metrics
enabled, a record (failed, high-cost, or otherwise) is appended iff the
random draw does not exceed the sample rate, and is dropped otherwise;
failure or high cost only triggers an immediate storage save of the log, not
a sampling bypass.  Under the shipped sample rate of 1.0 every record is
appended. -/
theorem recordSearch_sampling_amended (cfg : SearchAnalytics.AnalyticsConfig)
    (log : List SearchAnalytics.SearchMetricsRec)
    (m : SearchAnalytics.SearchMetricsIn) (now : Nat) (rand : Rat)
    (henable : cfg.enableMetrics = true) :
    (rand ≤ cfg.sampleRate →
      (SearchAnalytics.recordSearch cfg log m now rand).1 = log ++ [⟨m, now⟩]) ∧
    (rand > cfg.sampleRate →
      (SearchAnalytics.recordSearch cfg log m now rand).1 = log) ∧
    (0 ≤ rand → rand < 1 →
      (SearchAnalytics.recordSearch SearchAnalytics.defaultAnalyticsConfig log m
        now rand).1 = log ++ [⟨m, now⟩]) := by
  refine ⟨fun h => ?_, fun h => ?_, fun h0 h1 => ?_⟩
  · simp [SearchAnalytics.recordSearch, henable, not_lt.mpr h]
  · simp [SearchAnalytics.recordSearch, henable, h]
  · have hns : ¬ SearchConfig.analyticsSampleRate < rand := by
      rw [SearchConfig.analyticsSampleRate]; linarith
    simp [SearchAnalytics.recordSearch, SearchAnalytics.defaultAnalyticsConfig,
      SearchConfig.analyticsEnableMetrics, hns]

/-- C8 witness: a failed record is appended when the
draw (0.25) is below the sample rate (0.5). -/
theorem recordSearch_sampling_witness :
    ((⟨true, 1 / 2⟩ : SearchAnalytics.AnalyticsConfig).enableMetrics = true) ∧
    ((1 / 4 : Rat) ≤ (1 / 2 : Rat)) ∧
    (SearchAnalytics.recordSearch ⟨true, 1 / 2⟩ [] SearchAnalytics.failedMetric 0
      (1 / 4)).1 = [] ++ [⟨SearchAnalytics.failedMetric, 0⟩] :=
  ⟨rfl, by decide,
    (recordSearch_sampling_amended ⟨true, 1 / 2⟩ [] SearchAnalytics.failedMetric 0
      (1 / 4) rfl).1 (by decide)⟩

/-- C10: `generateAIReport` never rejects — every LLM-call failure
(unsupported model name, rejected fetch, non-OK HTTP status, empty or
malformed body) is caught and returned as a string beginning with
`"Analysis unavailable due to API error: "`; and the bounded retry loop of
`generateReportWithRetry` always returns the report of some attempt
`k ≤ maxRetries`, so `generateReport` always completes and delivers a report
even when every LLM call fails. -/
theorem generateAIReport_failure_prefixed (modelName : String)
    (outcome : DeepResearchDegen.FetchOutcome)
    (h : DeepResearchDegen.isFailureOutcome modelName outcome = true) :
    (∃ rest, DeepResearchDegen.generateAIReport modelName outcome =
      DeepResearchDegen.errApiMsgStart ++ rest) ∧
    (∀ (reportAt : Nat → String) (acceptableAt : Nat → Bool),
      ∃ k, k ≤ DeepResearchDegen.drMaxRetries ∧
        DeepResearchDegen.generateReportWithRetry reportAt acceptableAt
          (DeepResearchDegen.drMaxRetries + 1) 0 = (reportAt k, k)) := by
  constructor
  · unfold DeepResearchDegen.generateAIReport
    unfold DeepResearchDegen.isFailureOutcome at h
    by_cases hm : modelName = "" ∨ jsIncludes modelName "o3" = false
    · rw [if_pos hm]
      exact ⟨_, rfl⟩
    · rw [if_neg hm]
      rw [if_neg hm] at h
      match outcome with
      | .threw msg => exact ⟨msg, rfl⟩
      | .completed ok status stText errText body =>
        dsimp only at h ⊢
        by_cases hok : ok = false
        · simp only [hok, if_pos rfl]
          exact ⟨_, rfl⟩
        · rw [if_neg hok]
          rw [if_neg hok] at h
          cases hec : DeepResearchDegen.extractContent body with
          | none => exact ⟨_, rfl⟩
          | some s =>
            rw [hec] at h
            dsimp only at h ⊢
            by_cases hs : s = ""
            · rw [if_pos hs]
              exact ⟨_, rfl⟩
            · rw [if_neg hs] at h
              exact absurd h (by simp)
  · intro reportAt acceptableAt
    by_cases h0 : acceptableAt 0 = true
    · exact ⟨0, Nat.zero_le _,
        by simp [DeepResearchDegen.generateReportWithRetry, h0]⟩
    · replace h0 := eq_false_of_ne_true h0
      by_cases h1 : acceptableAt 1 = true
      · exact ⟨1, by norm_num [DeepResearchDegen.drMaxRetries],
          by norm_num [DeepResearchDegen.generateReportWithRetry, h0, h1,
            DeepResearchDegen.drMaxRetries]⟩
      · replace h1 := eq_false_of_ne_true h1
        by_cases h2 : acceptableAt 2 = true
        · exact ⟨2, by norm_num [DeepResearchDegen.drMaxRetries],
            by norm_num [DeepResearchDegen.generateReportWithRetry, h0, h1, h2,
              DeepResearchDegen.drMaxRetries]⟩
        · replace h2 := eq_false_of_ne_true h2
          exact ⟨3, le_refl _,
            by norm_num [DeepResearchDegen.generateReportWithRetry, h0, h1, h2,
              DeepResearchDegen.drMaxRetries]⟩

/-- C10 witness: a rejected fetch under the default model name yields the
error-prefixed report. -/
theorem generateAIReport_failure_prefixed_witness :
    DeepResearchDegen.isFailureOutcome "o3-deep-research-2025-06-26"
      (.threw "fetch failed") = true ∧
    ∃ rest, DeepResearchDegen.generateAIReport "o3-deep-research-2025-06-26"
      (.threw "fetch failed") = DeepResearchDegen.errApiMsgStart ++ rest :=
  ⟨by decide, (generateAIReport_failure_prefixed _ _ (by decide)).1⟩

/-- C5 counterexample: with the breaker parameters the search service uses
(`failureThreshold = 5`), four failures, then a success, then one more
failure open the circuit even though the failures were not consecutive — the
success while `CLOSED` left the failure counter at 4 instead of resetting it,
so a success between failures does not prevent opening. -/
theorem circuitBreaker_opens_despite_success :
    RetryUtils.cbAfterSuccess.mode = RetryUtils.BreakerMode.closed ∧
    RetryUtils.cbAfterSuccess.failures = 4 ∧
    RetryUtils.cbAfterFifthFailure.mode = RetryUtils.BreakerMode.opened := by
  refine ⟨by decide, by decide, by decide⟩

/-- C5 amended: the breaker opens after `failureThreshold` cumulative (not
necessarily consecutive) failures — a success while `CLOSED` leaves the
counter untouched; while `OPEN` inside the recovery window `execute` rejects
without invoking the wrapped function and without changing state; once
`recoveryTimeMs` has elapsed the call runs (`HALF_OPEN`), a success there
returns the breaker to `CLOSED` (resetting the counter), and a failure there
(the counter having reached the threshold) returns it to `OPEN`. -/
theorem circuitBreaker_transitions_amended (ft rt : Nat)
    (b : RetryUtils.BreakerState) (now : Nat) :
    (∀ res : Except String Unit, b.mode = .opened →
      now - b.lastFailureTime < rt →
      RetryUtils.execute ft rt b now res =
        (.error "Circuit breaker is OPEN - service unavailable", b, false)) ∧
    (∀ v : Unit, b.mode = .opened → rt ≤ now - b.lastFailureTime →
      RetryUtils.execute ft rt b now (.ok v) =
        (.ok v, { b with failures := 0, mode := .closed }, true)) ∧
    (∀ e : String, b.mode = .opened → rt ≤ now - b.lastFailureTime →
      ft ≤ b.failures →
      ((RetryUtils.execute ft rt b now (.error e : Except String Unit)).2.1.mode =
          .opened ∧
        (RetryUtils.execute ft rt b now (.error e : Except String Unit)).2.2 = true)) ∧
    (∀ e : String, b.mode = .closed →
      ((RetryUtils.execute ft rt b now (.error e : Except String Unit)).2.1.mode =
          .opened ↔ ft ≤ b.failures + 1)) ∧
    (∀ v : Unit, b.mode = .closed →
      RetryUtils.execute ft rt b now (.ok v) = (.ok v, b, true)) := by
  refine ⟨fun res hm ht => ?_, fun v hm ht => ?_, fun e hm ht hf => ?_,
    fun e hm => ?_, fun v hm => ?_⟩
  · unfold RetryUtils.execute
    rw [hm]
    rw [if_neg (by omega)]
  · unfold RetryUtils.execute
    rw [hm]
    rw [if_pos (by omega)]
    simp [RetryUtils.breakerRun]
  · unfold RetryUtils.execute
    rw [hm]
    rw [if_pos (by omega)]
    constructor
    · simp only [RetryUtils.breakerRun]
      rw [if_pos (by omega)]
    · simp [RetryUtils.breakerRun]
  · unfold RetryUtils.execute
    rw [hm]
    simp only [RetryUtils.breakerRun]
    constructor
    · intro hopen
      by_cases hge : b.failures + 1 ≥ ft
      · omega
      · rw [if_neg (by omega), hm] at hopen
        exact absurd hopen (by simp)
    · intro hge
      rw [if_pos (by omega)]
  · unfold RetryUtils.execute
    rw [hm]
    simp [RetryUtils.breakerRun, hm]

/-- C5 witness: an open breaker 500 ms after its
last failure (recovery 60000 ms) rejects without running the operation. -/
theorem circuitBreaker_transitions_witness :
    ((⟨5, 1000, .opened⟩ : RetryUtils.BreakerState).mode = .opened) ∧
    (1500 - (⟨5, 1000, .opened⟩ : RetryUtils.BreakerState).lastFailureTime < 60000) ∧
    RetryUtils.execute 5 60000 ⟨5, 1000, .opened⟩ 1500 (.ok () : Except String Unit) =
      (.error "Circuit breaker is OPEN - service unavailable",
        ⟨5, 1000, .opened⟩, false) :=
  ⟨rfl, by decide,
    (circuitBreaker_transitions_amended 5 60000 ⟨5, 1000, .opened⟩ 1500).1
      (.ok ()) rfl (by decide)⟩

/-- C4 (code bug): `replenishBurstTokens` carries no elapsed-time state and
runs on every `checkRateLimit` call, contradicting its own comment
("Replenish burst tokens every minute"): two calls at the same millisecond —
hence within the same calendar minute — add two tokens to the exhausted pool
of identifier `"u"`, where the claim (and the comment) allow at most one per
elapsed minute. -/
theorem replenish_adds_token_every_call :
    RateLimiter.getBurstTokens RateLimiter.zeroBurstState "u" = 0 ∧
    RateLimiter.getBurstTokens
      ((RateLimiter.checkRateLimit
        ((RateLimiter.checkRateLimit RateLimiter.zeroBurstState "v" 1 tClock).2)
        "v" 1 tClock).2) "u" = 2 := by
  exact ⟨by decide, by decide⟩

/-- C3 counterexample: a request denied by the hour bound still consumes a
burst token when the minute bound was also exceeded — the pool of `"u"`
drops from 5 to 4 on a call that returns `allowed = false`. -/
theorem checkRateLimit_denied_consumes_burst :
    (RateLimiter.checkRateLimit RateLimiter.denyBurstState "u" 1 tClock).1.allowed
        = false ∧
    RateLimiter.getBurstTokens RateLimiter.denyBurstState "u" = 5 ∧
    RateLimiter.getBurstTokens
      (RateLimiter.checkRateLimit RateLimiter.denyBurstState "u" 1 tClock).2 "u"
        = 4 := by
  refine ⟨by decide, by decide, by decide⟩

/-- C3 amended: a `checkRateLimit` call that returns `allowed = false` leaves
the request-window state (and hence the minute- and hour-window totals of
every identifier) unchanged, but it may change the burst-token pool: the
start-of-call replenishment adds a token to every tracked identifier below
the cap, and a call denied by the hour bound still consumes a burst token
when the minute bound was also exceeded. -/
theorem checkRateLimit_denied_windows_unchanged (st : RateLimiter.RateState)
    (id : String) (rc now : Nat)
    (h : (RateLimiter.checkRateLimit st id rc now).1.allowed = false) :
    (RateLimiter.checkRateLimit st id rc now).2.requests = st.requests := by
  simp only [RateLimiter.checkRateLimit] at h ⊢
  split_ifs at h ⊢ <;>
    simp_all [RateLimiter.consume_requests, RateLimiter.replenish_requests]

/-- C3 witness: a call denied by the full hour window
leaves the request records untouched. -/
theorem checkRateLimit_denied_windows_unchanged_witness :
    ((RateLimiter.checkRateLimit RateLimiter.denyHourState "u" 1 tClock).1.allowed
      = false) ∧
    (RateLimiter.checkRateLimit RateLimiter.denyHourState "u" 1 tClock).2.requests =
      RateLimiter.denyHourState.requests :=
  ⟨by decide,
    checkRateLimit_denied_windows_unchanged RateLimiter.denyHourState "u" 1 tClock
      (by decide)⟩

theorem CostTracker.lookupDay_pushEntry (st : CostTracker.CostState) (day : Nat)
    (e : CostTracker.CostEntry) :
    CostTracker.lookupDay (CostTracker.pushEntry st day e) day =
      some ((CostTracker.lookupDay st day).getD [] ++ [e]) := by
  induction st with
  | nil => simp [CostTracker.pushEntry, CostTracker.lookupDay]
  | cons p rest ih =>
    obtain ⟨d, es⟩ := p
    by_cases hd : d = day
    · subst hd
      simp [CostTracker.pushEntry, CostTracker.lookupDay]
    · simp [CostTracker.pushEntry, CostTracker.lookupDay, hd, ih]

theorem CostTracker.dayKey_bounds {t D : Nat} (h : CostTracker.dayKeyOf t = D) :
    D * CostTracker.msPerDay ≤ t ∧ t < (D + 1) * CostTracker.msPerDay := by
  unfold CostTracker.dayKeyOf at h
  have h1 := Nat.div_add_mod t CostTracker.msPerDay
  have h2 : t % CostTracker.msPerDay < CostTracker.msPerDay :=
    Nat.mod_lt _ (by norm_num [CostTracker.msPerDay])
  rw [h] at h1
  simp only [CostTracker.msPerDay] at h1 h2 ⊢
  omega

theorem CostTracker.cleanOldEntries_sameDay (st : CostTracker.CostState)
    (D now : Nat) (hnow : CostTracker.dayKeyOf now = D)
    (hinv : ∀ p ∈ st, p.1 = D ∧ p.2 ≠ [] ∧
      ∀ e ∈ p.2, CostTracker.dayKeyOf e.timestamp = D) :
    CostTracker.cleanOldEntries st now = st := by
  unfold CostTracker.cleanOldEntries
  have hmap : st.map (fun p => (p.1, p.2.filter fun e =>
      (e.timestamp : Int) > (now : Int) - 30 * 24 * 60 * 60 * 1000)) = st := by
    conv_rhs => rw [← List.map_id st]
    apply List.map_congr_left
    intro p hp
    obtain ⟨-, -, hdays⟩ := hinv p hp
    obtain ⟨k, es⟩ := p
    have hfe : es.filter (fun e =>
        (now : Int) - 2592000000 < (e.timestamp : Int)) = es := by
      rw [List.filter_eq_self]
      intro e he
      have hb1 := CostTracker.dayKey_bounds (hdays e he)
      have hb2 := CostTracker.dayKey_bounds hnow
      simp only [CostTracker.msPerDay] at hb1 hb2
      simp only [decide_eq_true_eq]
      omega
    simpa using hfe
  rw [hmap, List.filter_eq_self]
  intro p hp
  obtain ⟨-, hne, -⟩ := hinv p hp
  simpa using hne

theorem CostTracker.pushEntry_inv (st : CostTracker.CostState) (D : Nat)
    (e : CostTracker.CostEntry)
    (hinv : ∀ p ∈ st, p.1 = D ∧ p.2 ≠ [] ∧
      ∀ x ∈ p.2, CostTracker.dayKeyOf x.timestamp = D)
    (he : CostTracker.dayKeyOf e.timestamp = D) :
    ∀ p ∈ CostTracker.pushEntry st D e, p.1 = D ∧ p.2 ≠ [] ∧
      ∀ x ∈ p.2, CostTracker.dayKeyOf x.timestamp = D := by
  induction st with
  | nil =>
    intro p hp
    simp only [CostTracker.pushEntry, List.mem_singleton] at hp
    subst hp
    refine ⟨rfl, by simp, ?_⟩
    intro x hx
    rw [List.mem_singleton] at hx
    subst hx
    exact he
  | cons hd rest ih =>
    obtain ⟨d, es⟩ := hd
    intro p hp
    by_cases hdD : d = D
    · subst hdD
      simp only [CostTracker.pushEntry, if_pos rfl] at hp
      cases hp with
      | head =>
        obtain ⟨h1, h2, h3⟩ := hinv (d, es) (List.mem_cons_self _ _)
        refine ⟨h1, by simp, ?_⟩
        intro x hx
        rcases List.mem_append.mp hx with hx2 | hx2
        · exact h3 x hx2
        · rw [List.mem_singleton] at hx2
          subst hx2
          exact he
      | tail _ hmem => exact hinv p (List.mem_cons_of_mem _ hmem)
    · simp only [CostTracker.pushEntry, if_neg hdD] at hp
      cases hp with
      | head => exact hinv (d, es) (List.mem_cons_self _ _)
      | tail _ hmem =>
        exact ih (fun q hq => hinv q (List.mem_cons_of_mem _ hq)) p hmem

theorem CostTracker.recordCost_step (st : CostTracker.CostState) (D now : Nat)
    (q : Nat) (op : String) (hnow : CostTracker.dayKeyOf now = D)
    (hinv : ∀ p ∈ st, p.1 = D ∧ p.2 ≠ [] ∧
      ∀ e ∈ p.2, CostTracker.dayKeyOf e.timestamp = D) :
    (∀ p ∈ (CostTracker.recordCost st now q op).2, p.1 = D ∧ p.2 ≠ [] ∧
      ∀ e ∈ p.2, CostTracker.dayKeyOf e.timestamp = D) ∧
    (∀ now', CostTracker.dayKeyOf now' = D →
      CostTracker.getDailyCost (CostTracker.recordCost st now q op).2 now' =
        CostTracker.getDailyCost st now' +
          (q : Rat) * SearchConfig.costPerQuery) := by
  have hinv1 := CostTracker.pushEntry_inv st D
    ⟨now, (q : Rat) * SearchConfig.costPerQuery, q, op⟩ hinv hnow
  have heq : (CostTracker.recordCost st now q op).2 =
      CostTracker.pushEntry st D
        ⟨now, (q : Rat) * SearchConfig.costPerQuery, q, op⟩ := by
    simp only [CostTracker.recordCost, hnow]
    exact CostTracker.cleanOldEntries_sameDay _ D now hnow hinv1
  refine ⟨by rw [heq]; exact hinv1, ?_⟩
  intro now' hnow'
  rw [heq]
  simp only [CostTracker.getDailyCost, hnow', hnow]
  rw [CostTracker.lookupDay_pushEntry]
  simp

theorem CostTracker.applyCalls_spec (D : Nat) (calls : List (Nat × Nat × String))
    (hcalls : ∀ c ∈ calls, CostTracker.dayKeyOf c.1 = D) :
    (∀ p ∈ CostTracker.applyCalls [] calls, p.1 = D ∧ p.2 ≠ [] ∧
      ∀ e ∈ p.2, CostTracker.dayKeyOf e.timestamp = D) ∧
    (∀ now', CostTracker.dayKeyOf now' = D →
      CostTracker.getDailyCost (CostTracker.applyCalls [] calls) now' =
        ((calls.map fun c => (c.2.1 : Rat) * SearchConfig.costPerQuery).sum)) := by
  induction calls using List.reverseRecOn with
  | nil =>
    refine ⟨by simp [CostTracker.applyCalls], ?_⟩
    intro now' _
    simp [CostTracker.applyCalls, CostTracker.getDailyCost, CostTracker.lookupDay]
  | append_singleton xs c ih =>
    have hxs : ∀ x ∈ xs, CostTracker.dayKeyOf x.1 = D :=
      fun x hx => hcalls x (by simp [hx])
    have hc : CostTracker.dayKeyOf c.1 = D := hcalls c (by simp)
    obtain ⟨ihinv, ihsum⟩ := ih hxs
    have happ : CostTracker.applyCalls [] (xs ++ [c]) =
        (CostTracker.recordCost (CostTracker.applyCalls [] xs) c.1 c.2.1 c.2.2).2 := by
      simp [CostTracker.applyCalls, List.foldl_append]
    obtain ⟨stepinv, stepsum⟩ :=
      CostTracker.recordCost_step (CostTracker.applyCalls [] xs) D c.1 c.2.1 c.2.2
        hc ihinv
    refine ⟨by rw [happ]; exact stepinv, ?_⟩
    intro now' hnow'
    rw [happ, stepsum now' hnow', ihsum now' hnow']
    simp

/-- C2: for every sequence of `recordCost(queries, operation)` calls made on
the same calendar day, `getDailyCost()` equals the sum of the recorded costs
(each cost being `queries * costPerQuery`), and `canAffordOperation(n)`
returns `false` exactly when `getDailyCost() + n * costPerQuery` exceeds
`dailySpendLimit`. -/
theorem costTracker_budget_invariant (calls : List (Nat × Nat × String))
    (D now' : Nat) (n : Nat)
    (hcalls : ∀ c ∈ calls, CostTracker.dayKeyOf c.1 = D)
    (hnow : CostTracker.dayKeyOf now' = D) :
    CostTracker.getDailyCost (CostTracker.applyCalls [] calls) now' =
      ((calls.map fun c => (c.2.1 : Rat) * SearchConfig.costPerQuery).sum) ∧
    (CostTracker.canAffordOperation (CostTracker.applyCalls [] calls) now' n
        = false ↔
      SearchConfig.dailySpendLimit <
        CostTracker.getDailyCost (CostTracker.applyCalls [] calls) now' +
          (n : Rat) * SearchConfig.costPerQuery) := by
  refine ⟨(CostTracker.applyCalls_spec D calls hcalls).2 now' hnow, ?_⟩
  simp [CostTracker.canAffordOperation, not_le]

/-- C2 witness: two same-day calls recording 2 and 3 queries yield a
daily cost of `5 * costPerQuery`, and affording 5 more queries is still
possible (`canAffordOperation` is not false since `0.01 ≤ 100`). -/
theorem costTracker_budget_invariant_witness :
    (∀ c ∈ [(tClock, 2, "search"), (tClock + 1000, 3, "llm")],
      CostTracker.dayKeyOf c.1 = CostTracker.dayKeyOf tClock) ∧
    CostTracker.getDailyCost
      (CostTracker.applyCalls [] [(tClock, 2, "search"), (tClock + 1000, 3, "llm")])
      tClock =
      (([(tClock, 2, "search"), (tClock + 1000, 3, "llm")].map
        fun c => (c.2.1 : Rat) * SearchConfig.costPerQuery).sum) :=
  ⟨by decide,
    (costTracker_budget_invariant
      [(tClock, 2, "search"), (tClock + 1000, 3, "llm")]
      (CostTracker.dayKeyOf tClock) tClock 5 (by decide) rfl).1⟩

theorem CacheService.scanMin_le_best (now : Nat) (l : List (String × CacheService.CacheEntry)) :
    ∀ best, (CacheService.scanMin now best l).2 ≤ best.2 := by
  induction l with
  | nil => intro best; simp [CacheService.scanMin]
  | cons hd rest ih =>
    intro best
    obtain ⟨k, e⟩ := hd
    simp only [CacheService.scanMin]
    by_cases h : CacheService.entryScore e now < best.2
    · rw [if_pos h]
      exact le_trans (ih _) (le_of_lt h)
    · rw [if_neg h]
      exact ih best

theorem CacheService.scanMin_le_all (now : Nat)
    (l : List (String × CacheService.CacheEntry)) :
    ∀ best, ∀ p ∈ l,
      (CacheService.scanMin now best l).2 ≤ CacheService.entryScore p.2 now := by
  induction l with
  | nil => intro best p hp; simp at hp
  | cons hd rest ih =>
    intro best p hp
    obtain ⟨k, e⟩ := hd
    simp only [CacheService.scanMin]
    cases hp with
    | head =>
      by_cases h : CacheService.entryScore e now < best.2
      · rw [if_pos h]
        exact CacheService.scanMin_le_best now rest _
      · rw [if_neg h]
        exact le_trans (CacheService.scanMin_le_best now rest best) (not_lt.mp h)
    | tail _ hmem =>
      by_cases h : CacheService.entryScore e now < best.2
      · rw [if_pos h]
        exact ih _ p hmem
      · rw [if_neg h]
        exact ih best p hmem

theorem CacheService.scanMin_mem (now : Nat)
    (l : List (String × CacheService.CacheEntry)) :
    ∀ best, CacheService.scanMin now best l = best ∨
      ∃ e, ((CacheService.scanMin now best l).1, e) ∈ l ∧
        (CacheService.scanMin now best l).2 = CacheService.entryScore e now := by
  induction l with
  | nil => intro best; left; rfl
  | cons hd rest ih =>
    intro best
    obtain ⟨k, e⟩ := hd
    simp only [CacheService.scanMin]
    by_cases h : CacheService.entryScore e now < best.2
    · rw [if_pos h]
      rcases ih (k, CacheService.entryScore e now) with heq | ⟨e2, hmem, hsc⟩
      · right
        refine ⟨e, ?_, ?_⟩
        · rw [heq]; exact List.mem_cons_self _ _
        · rw [heq]
      · right
        exact ⟨e2, List.mem_cons_of_mem _ hmem, hsc⟩
    · rw [if_neg h]
      rcases ih best with heq | ⟨e2, hmem, hsc⟩
      · left; exact heq
      · right
        exact ⟨e2, List.mem_cons_of_mem _ hmem, hsc⟩

theorem CacheService.setEntry_length_le (l : List (String × CacheService.CacheEntry))
    (k : String) (e : CacheService.CacheEntry) :
    (CacheService.setEntry l k e).length ≤ l.length + 1 := by
  induction l with
  | nil => simp [CacheService.setEntry]
  | cons hd rest ih =>
    obtain ⟨k0, e0⟩ := hd
    simp only [CacheService.setEntry]
    by_cases h : k0 = k
    · rw [if_pos h]; simp
    · rw [if_neg h]
      simpa using ih

theorem CacheService.setEntry_length_of_fresh
    (l : List (String × CacheService.CacheEntry)) (k : String)
    (e : CacheService.CacheEntry) (h : CacheService.lookupEntry l k = none) :
    (CacheService.setEntry l k e).length = l.length + 1 := by
  induction l with
  | nil => simp [CacheService.setEntry]
  | cons hd rest ih =>
    obtain ⟨k0, e0⟩ := hd
    simp only [CacheService.lookupEntry] at h
    simp only [CacheService.setEntry]
    by_cases hk : k0 = k
    · rw [if_pos hk] at h
      exact absurd h (by simp)
    · rw [if_neg hk] at h
      rw [if_neg hk]
      simp [ih h]

theorem CacheService.evictLRU_of_le (st : CacheService.CacheState) (now : Nat)
    (h : st.entries.length ≤ SearchConfig.maxCacheSize) :
    CacheService.evictLRU st now = st := by
  unfold CacheService.evictLRU
  rw [if_pos h]

theorem CacheService.evictLRU_over (st : CacheService.CacheState) (now : Nat)
    (h : SearchConfig.maxCacheSize < st.entries.length) :
    ∃ km sm, (∃ e, (km, e) ∈ st.entries ∧ CacheService.entryScore e now = sm) ∧
      (∀ p ∈ st.entries, sm ≤ CacheService.entryScore p.2 now) ∧
      (CacheService.evictLRU st now).entries =
        CacheService.deleteEntry st.entries km ∧
      (CacheService.evictLRU st now).entries.length + 1 = st.entries.length := by
  obtain ⟨entries, hits, misses⟩ := st
  rcases entries with _ | ⟨⟨k, e⟩, rest⟩
  · simp [SearchConfig.maxCacheSize] at h
  · simp only at h
    unfold CacheService.evictLRU
    rw [if_neg (not_le.mpr h)]
    dsimp only
    obtain ⟨e0, hmem0, hsc0⟩ : ∃ e0,
        ((CacheService.scanMin now (k, CacheService.entryScore e now) rest).1, e0) ∈
          (k, e) :: rest ∧
        (CacheService.scanMin now (k, CacheService.entryScore e now) rest).2 =
          CacheService.entryScore e0 now := by
      rcases CacheService.scanMin_mem now rest (k, CacheService.entryScore e now) with
        heq | ⟨e2, hmem, hsc⟩
      · exact ⟨e, by rw [heq]; exact List.mem_cons_self _ _, by rw [heq]⟩
      · exact ⟨e2, List.mem_cons_of_mem _ hmem, hsc⟩
    have hlen := @List.length_eraseP_of_mem _ _ _
      (fun q => decide (q.1 =
        (CacheService.scanMin now (k, CacheService.entryScore e now) rest).1))
      hmem0 (by simp)
    refine ⟨(CacheService.scanMin now (k, CacheService.entryScore e now) rest).1,
      (CacheService.scanMin now (k, CacheService.entryScore e now) rest).2,
      ⟨e0, hmem0, hsc0.symm⟩, ?_, rfl, ?_⟩
    · intro p hp
      cases hp with
      | head => exact CacheService.scanMin_le_best now rest _
      | tail _ hmem => exact CacheService.scanMin_le_all now rest _ p hmem
    · simp only [CacheService.deleteEntry]
      rw [hlen]
      simp

set_option maxRecDepth 200000 in
/-- C7 counterexample: `evictLRU` returns without evicting while the store
holds exactly `maxCacheSize` entries (the guard is `size <= maxCacheSize`),
so a `set` of a fresh key on a full store grows it to `maxCacheSize + 1`
entries — the entry count does exceed `maxCacheSize` after an operation. -/
theorem cache_set_exceeds_max :
    CacheService.bigCacheState.entries.length = SearchConfig.maxCacheSize ∧
    (CacheService.set CacheService.bigCacheState "fresh" [] none 0).entries.length =
      SearchConfig.maxCacheSize + 1 := by
  exact ⟨by decide, by decide⟩

/-- C7 amended: on `set`, eviction happens only when the store already
exceeds `maxCacheSize` (strictly), in which case one entry of minimal
composite `hits`/age score is removed; consequently the entry count after a
`set` never exceeds `maxCacheSize + 1` (rather than `maxCacheSize`). -/
theorem cache_set_bound_amended (st : CacheService.CacheState) (k : String)
    (v : List SearchSource) (ttl : Option Nat) (now : Nat) :
    (st.entries.length ≤ SearchConfig.maxCacheSize + 1 →
      (CacheService.set st k v ttl now).entries.length ≤
        SearchConfig.maxCacheSize + 1) ∧
    (st.entries.length ≤ SearchConfig.maxCacheSize →
      CacheService.evictLRU st now = st) ∧
    (SearchConfig.maxCacheSize < st.entries.length →
      ∃ km sm, (∃ e, (km, e) ∈ st.entries ∧ CacheService.entryScore e now = sm) ∧
        (∀ p ∈ st.entries, sm ≤ CacheService.entryScore p.2 now) ∧
        (CacheService.evictLRU st now).entries =
          CacheService.deleteEntry st.entries km ∧
        (CacheService.evictLRU st now).entries.length + 1 = st.entries.length) := by
  refine ⟨?_, CacheService.evictLRU_of_le st now, CacheService.evictLRU_over st now⟩
  intro hb
  show (CacheService.setEntry (CacheService.evictLRU st now).entries k _).length ≤
    SearchConfig.maxCacheSize + 1
  by_cases hover : SearchConfig.maxCacheSize < st.entries.length
  · obtain ⟨km, sm, -, -, -, hlen⟩ := CacheService.evictLRU_over st now hover
    have := CacheService.setEntry_length_le (CacheService.evictLRU st now).entries k
      { data := v, timestamp := now, ttl := ttl.getD SearchConfig.searchResultsTtl,
        compressedFlag := true, hits := 0, size := CacheService.calculateSize v }
    omega
  · rw [CacheService.evictLRU_of_le st now (not_lt.mp hover)]
    have := CacheService.setEntry_length_le st.entries k
      { data := v, timestamp := now, ttl := ttl.getD SearchConfig.searchResultsTtl,
        compressedFlag := true, hits := 0, size := CacheService.calculateSize v }
    omega

/-- C7 witness: a `set` on the empty store keeps the
entry count within the bound. -/
theorem cache_set_bound_witness :
    CacheService.emptyCache.entries.length ≤ SearchConfig.maxCacheSize + 1 ∧
    (CacheService.set CacheService.emptyCache "k" [] none 0).entries.length ≤
      SearchConfig.maxCacheSize + 1 :=
  ⟨by decide,
    (cache_set_bound_amended CacheService.emptyCache "k" [] none 0).1 (by decide)⟩

theorem CacheService.lookupEntry_setEntry
    (l : List (String × CacheService.CacheEntry)) (k : String)
    (e : CacheService.CacheEntry) :
    CacheService.lookupEntry (CacheService.setEntry l k e) k = some e := by
  induction l with
  | nil => simp [CacheService.setEntry, CacheService.lookupEntry]
  | cons hd rest ih =>
    obtain ⟨k0, e0⟩ := hd
    simp only [CacheService.setEntry]
    by_cases h : k0 = k
    · rw [if_pos h]
      simp [CacheService.lookupEntry]
    · rw [if_neg h]
      simp [CacheService.lookupEntry, h, ih]

theorem CacheService.getSearchResults_setSearchResults
    (c : CacheService.CacheState) (q : String) (rs : List SearchSource)
    (mr : Option Nat) (now now' : Nat)
    (ht : now' - now ≤ SearchConfig.searchResultsTtl) :
    (CacheService.getSearchResults (CacheService.setSearchResults c q rs mr now)
      q mr now').1 = some rs := by
  unfold CacheService.getSearchResults CacheService.setSearchResults
    CacheService.get CacheService.set
  dsimp only
  rw [CacheService.lookupEntry_setEntry]
  dsimp only
  rw [if_neg ?hexp]
  case hexp =>
    simp only [CacheService.isExpired, Option.getD_none, decide_eq_true_eq, not_lt]
    simp only [SearchConfig.searchResultsTtl] at ht ⊢
    omega

theorem EnhancedSearchService.finishCall_inv (st : EnhancedSearchService.ServiceState)
    (q uid : String) (rs : List SearchSource) (cached : Bool) (now : Nat)
    (rand : Rat) (nc : Nat) (resp : EnhancedSearchService.SearchResponse)
    (st1 : EnhancedSearchService.ServiceState) (g1 : EnhancedSearchService.Ghost)
    (h : EnhancedSearchService.finishCall st q uid rs cached now rand nc =
      (.ok resp, st1, g1)) :
    resp.results = rs ∧ resp.metadata.cached = cached ∧ st1.cache = st.cache ∧
    (cached = true → resp.metadata.cost = 0 ∧ g1 = ⟨nc, 0⟩) := by
  simp only [EnhancedSearchService.finishCall, Prod.mk.injEq] at h
  obtain ⟨h1, h2, h3⟩ := h
  rw [Except.ok.injEq] at h1
  subst h1
  subst h2
  subst h3
  refine ⟨rfl, rfl, rfl, ?_⟩
  intro hc
  subst hc
  exact ⟨rfl, rfl⟩

theorem EnhancedSearchService.failExit_ne_ok (st : EnhancedSearchService.ServiceState)
    (q uid msg : String) (now : Nat) (rand : Rat) (nc : Nat)
    (resp : EnhancedSearchService.SearchResponse)
    (st1 : EnhancedSearchService.ServiceState) (g1 : EnhancedSearchService.Ghost) :
    EnhancedSearchService.failExit st q uid msg now rand nc ≠ (.ok resp, st1, g1) := by
  simp [EnhancedSearchService.failExit, Prod.mk.injEq]

theorem EnhancedSearchService.fetchAndCache_cache (st : EnhancedSearchService.ServiceState)
    (q uid : String) (mr : Nat) (now : Nat)
    (net : Except String (List SearchSource)) (rand : Rat)
    (resp : EnhancedSearchService.SearchResponse)
    (st1 : EnhancedSearchService.ServiceState) (g1 : EnhancedSearchService.Ghost)
    (h : EnhancedSearchService.fetchAndCache st q uid mr now net rand =
      (.ok resp, st1, g1)) :
    st1.cache = CacheService.setSearchResults st.cache q resp.results (some mr) now := by
  simp only [EnhancedSearchService.fetchAndCache] at h
  rcases hE : (RetryUtils.execute EnhancedSearchService.cbFailureThreshold
      EnhancedSearchService.cbRecoveryTimeMs st.breaker now net).1 with e | raw
  · rw [hE] at h
    exact absurd h (EnhancedSearchService.failExit_ne_ok _ _ _ _ _ _ _ _ _ _)
  · rw [hE] at h
    dsimp only at h
    obtain ⟨hres, -, hcache, -⟩ :=
      EnhancedSearchService.finishCall_inv _ _ _ _ _ _ _ _ _ _ _ h
    rw [hcache, hres]

theorem EnhancedSearchService.searchSingleCore_fresh_caches
    (st : EnhancedSearchService.ServiceState) (q uid : String) (mr : Nat)
    (fr : Bool) (now : Nat) (net : Except String (List SearchSource)) (rand : Rat)
    (resp : EnhancedSearchService.SearchResponse)
    (st1 : EnhancedSearchService.ServiceState) (g1 : EnhancedSearchService.Ghost)
    (h : EnhancedSearchService.searchSingleCore st q uid mr fr now net rand =
      (.ok resp, st1, g1))
    (hfresh : resp.metadata.cached = false) :
    ∀ now', now' - now ≤ SearchConfig.searchResultsTtl →
      (CacheService.getSearchResults st1.cache q (some mr) now').1 =
        some resp.results := by
  intro now' ht
  simp only [EnhancedSearchService.searchSingleCore] at h
  by_cases hFR : fr = true
  · rw [hFR] at h
    simp only [if_pos rfl] at h
    rw [EnhancedSearchService.fetchAndCache_cache _ _ _ _ _ _ _ _ _ _ h]
    exact CacheService.getSearchResults_setSearchResults _ _ _ _ _ _ ht
  · rw [eq_false_of_ne_true hFR] at h
    simp only [Bool.false_eq_true, if_false] at h
    rcases hC : CacheService.getSearchResults st.cache q (some mr) now with ⟨cres, cst⟩
    rw [hC] at h
    dsimp only at h
    rcases cres with _ | rs
    · rw [EnhancedSearchService.fetchAndCache_cache _ _ _ _ _ _ _ _ _ _ h]
      exact CacheService.getSearchResults_setSearchResults _ _ _ _ _ _ ht
    · obtain ⟨-, hcached, -, -⟩ :=
        EnhancedSearchService.finishCall_inv _ _ _ _ _ _ _ _ _ _ _ h
      rw [hcached] at hfresh
      exact absurd hfresh (by simp)

/-- C1 amended: if a `searchSingle(Q)` call succeeds with a fresh (uncached)
fetch, then a second `searchSingle(Q)` call with the same options (no force
refresh) issued before the cache TTL expires — provided it passes the budget
check and the rate-limit check that `searchSingle` runs *before* consulting
the cache — returns the identical cached `results[]`, reports
`cached = true` with zero cost, performs no network call, and never calls
`recordCost`. -/
theorem searchSingle_cache_idempotent_amended
    (st : EnhancedSearchService.ServiceState) (q : String)
    (opts : EnhancedSearchService.EnhOptions) (now₁ now₂ : Nat)
    (net₁ net₂ : Except String (List SearchSource)) (rand₁ rand₂ : Rat)
    (resp₁ : EnhancedSearchService.SearchResponse)
    (st₁ : EnhancedSearchService.ServiceState) (g₁ : EnhancedSearchService.Ghost)
    (h1 : EnhancedSearchService.searchSingle st q opts now₁ net₁ rand₁ =
      (.ok resp₁, st₁, g₁))
    (hfresh : resp₁.metadata.cached = false)
    (hfr : opts.forceRefresh = false)
    (ht : now₂ - now₁ ≤ SearchConfig.searchResultsTtl)
    (haff : CostTracker.canAffordOperation st₁.cost now₂ 1 = true)
    (hrate : opts.bypassRateLimit = true ∨
      (RateLimiter.checkRateLimit st₁.rate (EnhancedSearchService.uidOf opts) 1
        now₂).1.allowed = true) :
    ∃ resp₂ st₂ g₂,
      EnhancedSearchService.searchSingle st₁ q opts now₂ net₂ rand₂ =
        (.ok resp₂, st₂, g₂) ∧
      resp₂.results = resp₁.results ∧
      resp₂.metadata.cached = true ∧
      resp₂.metadata.cost = 0 ∧
      g₂.networkCalls = 0 ∧ g₂.recordCostCalls = 0 := by
  have hcache : (CacheService.getSearchResults st₁.cache q
      (some (EnhancedSearchService.effMaxResults opts)) now₂).1 =
      some resp₁.results := by
    simp only [EnhancedSearchService.searchSingle] at h1
    by_cases hA : CostTracker.canAffordOperation st.cost now₁ 1 = false
    · rw [if_pos hA] at h1
      exact absurd h1 (EnhancedSearchService.failExit_ne_ok _ _ _ _ _ _ _ _ _ _)
    · rw [if_neg hA] at h1
      by_cases hb : opts.bypassRateLimit = true
      · rw [hb] at h1
        simp only [eq_self_iff_true, if_true] at h1
        exact EnhancedSearchService.searchSingleCore_fresh_caches
          _ _ _ _ _ _ _ _ _ _ _ h1 hfresh now₂ ht
      · rw [eq_false_of_ne_true hb] at h1
        simp only [Bool.false_eq_true, if_false] at h1
        by_cases hAl : (RateLimiter.checkRateLimit st.rate
            (EnhancedSearchService.uidOf opts) 1 now₁).1.allowed = true
        · rw [hAl] at h1
          simp only [eq_self_iff_true, if_true] at h1
          exact EnhancedSearchService.searchSingleCore_fresh_caches
            _ _ _ _ _ _ _ _ _ _ _ h1 hfresh now₂ ht
        · rw [eq_false_of_ne_true hAl] at h1
          simp only [Bool.false_eq_true, if_false] at h1
          exact absurd h1 (EnhancedSearchService.failExit_ne_ok _ _ _ _ _ _ _ _ _ _)
  obtain ⟨cres2, hpair⟩ : ∃ c2, CacheService.getSearchResults st₁.cache q
      (some (EnhancedSearchService.effMaxResults opts)) now₂ =
      (some resp₁.results, c2) := by
    rcases hg : CacheService.getSearchResults st₁.cache q
      (some (EnhancedSearchService.effMaxResults opts)) now₂ with ⟨a, b⟩
    rw [hg] at hcache
    dsimp only at hcache
    exact ⟨b, by rw [hcache]⟩
  have hcore : ∀ stA : EnhancedSearchService.ServiceState, stA.cache = st₁.cache →
      ∃ resp₂ st₂ g₂,
        EnhancedSearchService.searchSingleCore stA q
          (EnhancedSearchService.uidOf opts)
          (EnhancedSearchService.effMaxResults opts) opts.forceRefresh now₂ net₂
          rand₂ = (.ok resp₂, st₂, g₂) ∧
        resp₂.results = resp₁.results ∧
        resp₂.metadata.cached = true ∧
        resp₂.metadata.cost = 0 ∧
        g₂.networkCalls = 0 ∧ g₂.recordCostCalls = 0 := by
    intro stA hAc
    simp only [EnhancedSearchService.searchSingleCore]
    rw [hfr]
    simp only [Bool.false_eq_true, if_false]
    rw [hAc, hpair]
    dsimp only
    refine ⟨_, _, _, rfl, rfl, rfl, rfl, rfl, rfl⟩
  simp only [EnhancedSearchService.searchSingle]
  rw [if_neg (by simp [haff])]
  rcases hrate with hb | hAl
  · rw [hb]
    simp only [eq_self_iff_true, if_true]
    exact hcore st₁ rfl
  · rw [hAl]
    simp only [eq_self_iff_true, if_true]
    by_cases hb : opts.bypassRateLimit = true
    · rw [hb]
      simp only [eq_self_iff_true, if_true]
      exact hcore st₁ rfl
    · rw [eq_false_of_ne_true hb]
      simp only [Bool.false_eq_true, if_false]
      exact hcore _ rfl

/-- C1 counterexample: the budget check runs before the cache consult, so a
second `searchSingle` call for an already-cached query fails with
`"Daily cost limit exceeded"` instead of returning the cached results: after
a first fresh call (which succeeds and records the last affordable 0.001 of
the daily budget), the second call for the same query — issued at the same
instant, well inside the TTL — throws rather than reporting `cached = true`. -/
theorem searchSingle_budget_blocks_cached_read :
    EnhancedSearchService.okRespOf EnhancedSearchService.cexCall1.1 =
      some ⟨[], ⟨false, 1 / 1000, 0, 1, 29, some 0⟩⟩ ∧
    EnhancedSearchService.errorMsgOf EnhancedSearchService.cexCall2.1 =
      some "Daily cost limit exceeded" := by
  exact ⟨by decide, by decide⟩

/-- C1 witness: a fresh call on an empty service
state followed by a repeat call at the same instant, which is answered from
the cache with identical results, zero cost and no network call. -/
theorem searchSingle_cache_idempotent_witness :
    ∃ resp₂ st₂ g₂,
      EnhancedSearchService.searchSingle EnhancedSearchService.wCall1.2.1 "q" {}
        tClock (Except.ok [EnhancedSearchService.wSrc]) 0 =
        (.ok resp₂, st₂, g₂) ∧
      resp₂.results = EnhancedSearchService.wResp1.results ∧
      resp₂.metadata.cached = true ∧
      resp₂.metadata.cost = 0 ∧
      g₂.networkCalls = 0 ∧ g₂.recordCostCalls = 0 :=
  searchSingle_cache_idempotent_amended EnhancedSearchService.wState0 "q" {}
    tClock tClock (Except.ok [EnhancedSearchService.wSrc])
    (Except.ok [EnhancedSearchService.wSrc]) 0 0
    EnhancedSearchService.wResp1 EnhancedSearchService.wCall1.2.1
    EnhancedSearchService.wCall1.2.2 rfl (by decide) rfl (by decide) (by decide)
    (Or.inr (by decide))
